import Mathlib

/-!
Shallow embedding of the trampoline/continuation orchestrator of the
repository (package `internal/orchestrator`: `orchestrator.go`, `task.go`,
`cache.go`, `state.go`), together with theorems settling the claims about
its specification.

Modelling conventions:
  - Go `interface` values stored in task contexts and result metadata are
    modelled by the JSON-like inductive `JValue`.
  - Go maps (`map[string]...`) are modelled by association lists with
    lookup / overwrite-insert / delete helpers (`assocLookup`,
    `assocInsert`, `assocErase`).  Go map semantics never depend on
    insertion order, so hypotheses about duplicate-free key lists appear
    where the claims need canonicity.
  - `float64` cost accumulators are modelled by `Rat`; the claims only add
    and compare costs, never exercise rounding.
  - Wall-clock time (`time.Time`, `time.Duration`) is modelled by `Int`
    instants and durations; `time.Since t = now - t`.
  - The filesystem (the per-key memo files of `.rlm_cache` and the
    snapshot file `.rlm_state.json`) is modelled by explicit fields
    `cache` and `snapshot` of the orchestrator state; file I/O is assumed
    to succeed (write failures are only logged in the source).
  - The Go stack slice pushes and pops at its end; the model keeps the
    stack top at the HEAD of the list, so `append(stack, t)` becomes
    `t :: stack` and popping the last element becomes taking the tail.
-/

namespace RLM

/-- JSON-like values standing for the Go `interface` values held in a
task's context, a result's metadata, and child results. -/
inductive JValue where
  | str : String → JValue
  | num : Int → JValue
  | bool : Bool → JValue
  | null : JValue
deriving DecidableEq

/-- Association-list lookup, modelling Go map indexing `m[k]`. -/
def assocLookup {α : Type} : List (String × α) → String → Option α
  | [], _ => none
  | (k, v) :: rest, key => if k = key then some v else assocLookup rest key

/-- Association-list overwrite-insert, modelling Go map assignment
`m[k] = v`. -/
def assocInsert {α : Type} : List (String × α) → String → α → List (String × α)
  | [], key, v => [(key, v)]
  | (k, w) :: rest, key, v =>
      if k = key then (key, v) :: rest else (k, w) :: assocInsert rest key v

/-- Association-list delete, modelling Go `delete(m, k)` and
`os.Remove` of a per-key cache file. -/
def assocErase {α : Type} : List (String × α) → String → List (String × α)
  | [], _ => []
  | (k, w) :: rest, key => if k = key then rest else (k, w) :: assocErase rest key

/-- Completed work from a subagent (`AnalysisResult` in `task.go`).  The
Go field `Type` (always the string RESULT) is renamed `rtype` because
`Type` is a Lean keyword. -/
structure AnalysisResult where
  rtype : String
  Content : String
  Metadata : List (String × JValue)
  TokenCount : Int
  CostUSD : Rat
deriving DecidableEq

/-- One node of the in-flight call tree (`Task` in `task.go`). -/
structure Task where
  AgentType : String
  TaskDescription : String
  Context : List (String × JValue)
  Depth : Nat
  ReturnTo : Option String
  ChildResults : List (String × AnalysisResult)
deriving DecidableEq

/-- The zero value of the Go `Task` struct (all fields empty), the
current task of a freshly constructed orchestrator. -/
def Task.empty : Task :=
  { AgentType := "", TaskDescription := "", Context := [],
    Depth := 0, ReturnTo := none, ChildResults := [] }

/-- A worker's request to recurse one level deeper
(`ContinuationRequest` in `task.go`).  The Go field `Type` (always the
string CONTINUATION) is renamed `rtype`; the field `Task` is the child
task description. -/
structure ContinuationRequest where
  rtype : String
  AgentType : String
  Task : String
  Context : List (String × JValue)
  ReturnTo : String
  Metadata : List (String × JValue)
deriving DecidableEq

/-- Run statistics (`Stats` in `task.go`). -/
structure Stats where
  TotalSubagentCalls : Nat
  TotalTokens : Int
  TotalCostUSD : Rat
  MaxDepthReached : Nat
  CacheHits : Nat
  StartTime : Int
deriving DecidableEq

/-- The zero-initialised stats written at the top of `AnalyzeDocument`
(`Stats\x7bStartTime: time.Now()\x7d`). -/
def freshStats (now : Int) : Stats :=
  { TotalSubagentCalls := 0, TotalTokens := 0, TotalCostUSD := 0,
    MaxDepthReached := 0, CacheHits := 0, StartTime := now }

/-- Persisted orchestrator state (`State` in `task.go`).  The Go field
`Stats` is renamed `RunStats` to avoid shadowing the type name. -/
structure State where
  Stack : List Task
  CurrentTask : Task
  Results : List (String × AnalysisResult)
  RunStats : Stats
  Timestamp : Int
deriving DecidableEq

/-- Tag of a subagent response (`ResultType` in `task.go`). -/
inductive ResultType where
  | continuation
  | analysis
  | unknown
deriving DecidableEq

/-- Union type for subagent responses (`SubagentResult` in `task.go`):
a tag plus two nullable payload pointers. -/
structure SubagentResult where
  rtype : ResultType
  Continuation : Option ContinuationRequest
  Analysis : Option AnalysisResult
deriving DecidableEq

/-- `SubagentResult.IsContinuation` from `task.go`. -/
def SubagentResult.IsContinuation (r : SubagentResult) : Bool :=
  r.rtype == ResultType.continuation && r.Continuation.isSome

/-- `SubagentResult.IsAnalysis` from `task.go`. -/
def SubagentResult.IsAnalysis (r : SubagentResult) : Bool :=
  r.rtype == ResultType.analysis && r.Analysis.isSome

/-- A cached result with metadata (`CacheEntry` in `cache.go`). -/
structure CacheEntry where
  Result : AnalysisResult
  Timestamp : Int
  TTL : Int
deriving DecidableEq

/-- The on-disk memo store: one entry per cache key, modelling the
one-file-per-key directory `.rlm_cache`. -/
abbrev CacheStore := List (String × CacheEntry)

/-- Orchestrator configuration (`Config` in `orchestrator.go`).  The
path fields `WorkDir` and `StateFile` are not modelled; the filesystem
is explicit in the orchestrator state. -/
structure Config where
  MaxRecursionDepth : Nat
  MaxIterations : Nat
  CacheEnabled : Bool
  CacheTTL : Int
deriving DecidableEq

/-- Minimal JSON string escaping, standing for the escaping performed by
Go `json.Marshal` on string values. -/
def escapeJString (s : String) : String :=
  String.mk ((s.data.map fun c =>
    if c = '"' then ['\\', '"']
    else if c = '\\' then ['\\', '\\']
    else [c]).flatten)

/-- Rendering of a `JValue` as Go `json.Marshal` renders the
corresponding dynamic value. -/
def serializeJValue : JValue → String
  | .str s => "\"" ++ escapeJString s ++ "\""
  | .num n => toString n
  | .bool b => if b then "true" else "false"
  | .null => "null"

/-- Rendering of the key-sorted context object, standing for
`json.Marshal(sortedContext)` in `GenerateCacheKey`.  The values are
options because they are obtained by lookup; a key drawn from the
context always looks up to `some`. -/
def serializeContext (l : List (String × Option JValue)) : String :=
  "\x7b" ++ String.intercalate ","
    (l.map fun p =>
      "\"" ++ escapeJString p.1 ++ "\":" ++
        (match p.2 with
         | some v => serializeJValue v
         | none => "null")) ++ "\x7d"

/-- Lexicographic less-or-equal on character lists by code point,
the order `sort.Strings` sorts by. -/
def charListLeb : List Char → List Char → Bool
  | [], _ => true
  | _ :: _, [] => false
  | a :: as, b :: bs =>
      if Nat.blt a.toNat b.toNat then true
      else if Nat.blt b.toNat a.toNat then false
      else charListLeb as bs

/-- Lexicographic less-or-equal on strings. -/
def strLeb (a b : String) : Bool :=
  charListLeb a.data b.data

/-- Insert a string into an already sorted list. -/
def insertSorted (s : String) : List String → List String
  | [] => [s]
  | t :: rest => if strLeb s t then s :: t :: rest else t :: insertSorted s rest

/-- Ascending insertion sort on strings, modelling `sort.Strings`
(any correct sort produces this unique ascending reordering). -/
def sortStrings : List String → List String
  | [] => []
  | s :: rest => insertSorted s (sortStrings rest)

/-- `GenerateCacheKey` from `cache.go`: sort the context keys, rebuild
the context in sorted key order, serialize it, and concatenate
agent type, task description and context JSON.  The Go code finally
applies SHA-256 to this string; SHA-256 is a fixed deterministic
function, so two tasks receive the same address exactly when their
pre-hash strings (modelled here as the key itself) are equal, and the
claims about the key are claims about this string. -/
def GenerateCacheKey (task : Task) : String :=
  let contextKeys := task.Context.map Prod.fst
  let sortedKeys := sortStrings contextKeys
  let sortedContext := sortedKeys.map fun k => (k, assocLookup task.Context k)
  let contextJSON := serializeContext sortedContext
  task.AgentType ++ "|" ++ task.TaskDescription ++ "|" ++ contextJSON

/-- A snapshot file on disk: either a well-formed serialized `State` or
malformed content that `json.Unmarshal` rejects. -/
inductive SnapshotFile where
  | good : State → SnapshotFile
  | corrupt : SnapshotFile
deriving DecidableEq

/-- The orchestrator (`Orchestrator` in `orchestrator.go`) together with
the filesystem it owns: `cache` models the `.rlm_cache` directory and
`snapshot` the `.rlm_state.json` file of the working directory. -/
structure Orchestrator where
  config : Config
  stack : List Task
  currentTask : Task
  results : List (String × AnalysisResult)
  stats : Stats
  cache : CacheStore
  snapshot : Option SnapshotFile
deriving DecidableEq

/-- Errors the analysis loop can surface (`ErrMaxDepthExceeded`,
`ErrMaxIterationsExceeded`, the wrapped dispatcher error
`subagent dispatch failed: ...`, and the `unknown result type` error of
`processResult`). -/
inductive RunError where
  | maxDepthExceeded
  | maxIterationsExceeded
  | dispatchFailed : String → RunError
  | unknownResultType
deriving DecidableEq

/-- A dispatcher (`SubagentDispatcher` in `orchestrator.go`): given the
current task it returns a response or an error. -/
abbrev Dispatcher := Task → Except String SubagentResult

instance {e a : Type} [DecidableEq e] [DecidableEq a] :
    DecidableEq (Except e a) := fun x y =>
  match x, y with
  | .ok v, .ok w =>
      if h : v = w then isTrue (by rw [h])
      else isFalse (by intro hc; cases hc; exact h rfl)
  | .error v, .error w =>
      if h : v = w then isTrue (by rw [h])
      else isFalse (by intro hc; cases hc; exact h rfl)
  | .ok _, .error _ => isFalse (by intro hc; cases hc)
  | .error _, .ok _ => isFalse (by intro hc; cases hc)

/-- `CheckCache` from `cache.go`, as a pure function of the store and
the clock: returns the hit (if any) and the store after the lazy
deletion of an expired entry.  A missing or unreadable per-key file is a
miss with the store unchanged. -/
def CheckCache (now : Int) (cfg : Config) (store : CacheStore) (task : Task) :
    Option AnalysisResult × CacheStore :=
  if cfg.CacheEnabled then
    let cacheKey := GenerateCacheKey task
    match assocLookup store cacheKey with
    | none => (none, store)
    | some entry =>
        if now - entry.Timestamp > entry.TTL then (none, assocErase store cacheKey)
        else (some entry.Result, store)
  else (none, store)

/-- `StoreCache` from `cache.go`: when caching is enabled, overwrite the
entry at the task's key with the result, the current instant as
`Timestamp`, and the configured TTL. -/
def StoreCache (now : Int) (cfg : Config) (store : CacheStore) (task : Task)
    (result : AnalysisResult) : CacheStore :=
  if cfg.CacheEnabled then
    assocInsert store (GenerateCacheKey task)
      { Result := result, Timestamp := now, TTL := cfg.CacheTTL }
  else store

/-- Record an analysis under an optional return label, modelling the
`if o.currentTask.ReturnTo != nil` guards of `processResult`. -/
def recordLabel (m : List (String × AnalysisResult)) (lbl : Option String)
    (a : AnalysisResult) : List (String × AnalysisResult) :=
  match lbl with
  | some l => assocInsert m l a
  | none => m

/-- `processResult` from `orchestrator.go`.  A continuation pushes the
current task and installs the child task one level deeper; an analysis
accumulates token and cost stats, stores the result in the memo store
under the CURRENT task's key, and, when the stack is non-empty, records
the result in the cross-frame results, pops the parent, injects the
result into the parent's child results, and makes the parent current.
Anything else is the `unknown result type` error. -/
def processResult (now : Int) (o : Orchestrator) (result : SubagentResult) :
    Except RunError Orchestrator :=
  match result.rtype, result.Continuation, result.Analysis with
  | .continuation, some c, _ =>
      .ok { o with
        stack := o.currentTask :: o.stack,
        currentTask :=
          { AgentType := c.AgentType, TaskDescription := c.Task,
            Context := c.Context, Depth := o.currentTask.Depth + 1,
            ReturnTo := some c.ReturnTo, ChildResults := [] } }
  | .analysis, _, some a =>
      let o2 := { o with
        stats := { o.stats with
          TotalTokens := o.stats.TotalTokens + a.TokenCount,
          TotalCostUSD := o.stats.TotalCostUSD + a.CostUSD },
        cache := StoreCache now o.config o.cache o.currentTask a }
      match o2.stack with
      | [] => .ok o2
      | parent :: rest =>
          .ok { o2 with
            results := recordLabel o2.results o.currentTask.ReturnTo a,
            stack := rest,
            currentTask :=
              { parent with
                ChildResults := recordLabel parent.ChildResults o.currentTask.ReturnTo a } }
  | _, _, _ => .error .unknownResultType

/-- `SaveState` from `state.go`: overwrite the snapshot file with the
current stack, task, results and stats. -/
def SaveState (now : Int) (o : Orchestrator) : Orchestrator :=
  { o with snapshot := some (.good
      { Stack := o.stack, CurrentTask := o.currentTask,
        Results := o.results, RunStats := o.stats, Timestamp := now }) }

/-- Outcome of one iteration of the trampoline loop: a fatal error, the
final answer, or the state at the head of the next iteration.  Each
constructor carries the orchestrator state left behind. -/
inductive IterResult where
  | failed : RunError → Orchestrator → IterResult
  | done : AnalysisResult → Orchestrator → IterResult
  | next : Orchestrator → IterResult
deriving DecidableEq

/-- The state carried by an iteration outcome. -/
def IterResult.state : IterResult → Orchestrator
  | .failed _ o => o
  | .done _ o => o
  | .next o => o

/-- The termination check after `processResult` (`orchestrator.go`
lines 167-178): if the stack is now empty and the outcome was an
analysis, clear the snapshot (`ClearState`) and return the answer;
otherwise persist the snapshot (`SaveState`) and continue looping. -/
def doneCheck (now : Int) (o2 : Orchestrator) (result : SubagentResult) :
    IterResult :=
  match o2.stack, result.rtype, result.Analysis with
  | [], .analysis, some a => .done a { o2 with snapshot := none }
  | _, _, _ => .next (SaveState now o2)

/-- The tail of a loop iteration after the outcome has been resolved
(`orchestrator.go` lines 162-178): run `processResult`, then the done
check and snapshot save. -/
def handleOutcome (now : Int) (o : Orchestrator) (result : SubagentResult) :
    IterResult :=
  match processResult now o result with
  | .error e => .failed e o
  | .ok o2 => doneCheck now o2 result

/-- Track `stats.MaxDepthReached` (`orchestrator.go` lines 131-134). -/
def bumpMaxDepth (o : Orchestrator) : Orchestrator :=
  { o with stats := { o.stats with
      MaxDepthReached :=
        if o.currentTask.Depth > o.stats.MaxDepthReached then o.currentTask.Depth
        else o.stats.MaxDepthReached } }

/-- Wrap a cached analysis the way the loop does on a memo hit
(`orchestrator.go` lines 148-151). -/
def analysisWrap (a : AnalysisResult) : SubagentResult :=
  { rtype := .analysis, Continuation := none, Analysis := some a }

/-- One iteration of the trampoline loop (`orchestrator.go` lines
119-179).  `iterations` is the loop counter BEFORE the `iterations++` at
the top of the body.  Order is exactly the source's: depth bound,
iteration bound, max-depth tracking, cache check, dispatch on a miss
(the dispatcher error is wrapped and returned with no counter change),
then `processResult`, the done check and the snapshot save. -/
def loopIter (disp : Dispatcher) (now : Int) (iterations : Nat)
    (o : Orchestrator) : IterResult :=
  if o.currentTask.Depth > o.config.MaxRecursionDepth then
    .failed .maxDepthExceeded o
  else if iterations + 1 > o.config.MaxIterations then
    .failed .maxIterationsExceeded o
  else
    let o1 := bumpMaxDepth o
    match CheckCache now o1.config o1.cache o1.currentTask with
    | (some cached, store2) =>
        handleOutcome now
          { o1 with
            cache := store2,
            stats := { o1.stats with CacheHits := o1.stats.CacheHits + 1 } }
          (analysisWrap cached)
    | (none, store2) =>
        match disp o1.currentTask with
        | .error msg => .failed (.dispatchFailed msg) { o1 with cache := store2 }
        | .ok result =>
            handleOutcome now
              { o1 with
                cache := store2,
                stats := { o1.stats with
                  TotalSubagentCalls := o1.stats.TotalSubagentCalls + 1 } }
              result

/-- The trampoline loop, driven by fuel.  `AnalyzeDocument` supplies
fuel `MaxIterations + 1`, which the iteration bound inside `loopIter`
makes sufficient: the fuel-exhausted base case is unreachable and
mirrors the bound it guards. -/
def runLoop (disp : Dispatcher) (now : Int) :
    Nat → Nat → Orchestrator → Except RunError AnalysisResult × Orchestrator
  | 0, _, o => (.error .maxIterationsExceeded, o)
  | fuel + 1, iterations, o =>
      match loopIter disp now iterations o with
      | .failed e s => (.error e, s)
      | .done a s => (.ok a, s)
      | .next s => runLoop disp now fuel (iterations + 1) s

/-- `LoadState` from `state.go`, as a function of the snapshot file: a
missing file is a successful no-op (fresh start), malformed content is
an unmarshal error, and well-formed content yields the stored state. -/
def LoadState : Option SnapshotFile → Except String (Option State)
  | none => .ok none
  | some .corrupt => .error ("failed to unmarshal state")
  | some (.good s) => .ok (some s)

/-- The root task synthesized by `AnalyzeDocument` when starting fresh
(`orchestrator.go` lines 104-115). -/
def rootTask (documentPath query : String) : Task :=
  { AgentType := "Explorer", TaskDescription := query,
    Context := [("document_path", JValue.str documentPath),
                ("query", JValue.str query)],
    Depth := 0, ReturnTo := none, ChildResults := [] }

/-- The state at the top of the trampoline loop of `AnalyzeDocument`
(lines 89-115): stats reset, state restored from the snapshot when it
loads (a load error is only logged), and the root task installed when
the current task is still the zero value (its `AgentType` is empty). -/
def initState (cfg : Config) (now : Int) (cache : CacheStore)
    (snapshot : Option SnapshotFile) (documentPath query : String) :
    Orchestrator :=
  match LoadState snapshot with
  | .ok (some s) =>
      { config := cfg, stack := s.Stack,
        currentTask :=
          if s.CurrentTask.AgentType = "" then rootTask documentPath query
          else s.CurrentTask,
        results := s.Results, stats := s.RunStats,
        cache := cache, snapshot := snapshot }
  | _ =>
      { config := cfg, stack := [], currentTask := rootTask documentPath query,
        results := [], stats := freshStats now,
        cache := cache, snapshot := snapshot }

/-- `AnalyzeDocument` from `orchestrator.go`, for a fresh orchestrator
(`New`) over the given working directory contents: initialise, then run
the trampoline loop.  Returns the result or error together with the
final orchestrator state (whose `cache` and `snapshot` fields are the
working directory afterwards). -/
def AnalyzeDocument (disp : Dispatcher) (now : Int) (cfg : Config)
    (cache : CacheStore) (snapshot : Option SnapshotFile)
    (documentPath query : String) :
    Except RunError AnalysisResult × Orchestrator :=
  runLoop disp now (cfg.MaxIterations + 1) 0
    (initState cfg now cache snapshot documentPath query)

/-- The root-to-active-node path condition of the spec: walking from the
current frame down the stack, each frame's depth is one more than the
next one's, and the bottom frame has depth 0. -/
def depthPath : Task → List Task → Bool
  | t, [] => t.Depth == 0
  | t, p :: rest => t.Depth == p.Depth + 1 && depthPath p rest

/-- One observable step of the controller loop: some dispatcher, clock
and iteration counter take the state at one loop head to the state at
the next loop head. -/
def StepLoop (o o2 : Orchestrator) : Prop :=
  ∃ (disp : Dispatcher) (now : Int) (iterations : Nat),
    loopIter disp now iterations o = .next o2

/-! Association-list lemmas. -/

theorem assocLookup_insert_self {α : Type} (l : List (String × α)) (k : String)
    (v : α) : assocLookup (assocInsert l k v) k = some v := by
  induction l with
  | nil => simp [assocInsert, assocLookup]
  | cons p rest ih =>
      obtain ⟨k1, v1⟩ := p
      by_cases h : k1 = k
      · subst h; simp [assocInsert, assocLookup]
      · simp [assocInsert, assocLookup, h, ih]

theorem assocLookup_none_iff {α : Type} (l : List (String × α)) (k : String) :
    assocLookup l k = none ↔ k ∉ l.map Prod.fst := by
  induction l with
  | nil => simp [assocLookup]
  | cons p rest ih =>
      obtain ⟨k1, v1⟩ := p
      by_cases h : k1 = k
      · subst h; simp [assocLookup]
      · have h2 : k ≠ k1 := fun heq => h heq.symm
        simp [assocLookup, h, h2, ih]

theorem assocLookup_mem {α : Type} {l : List (String × α)} {k : String} {v : α}
    (h : assocLookup l k = some v) : (k, v) ∈ l := by
  induction l with
  | nil => simp [assocLookup] at h
  | cons p rest ih =>
      obtain ⟨k1, v1⟩ := p
      by_cases heq : k1 = k
      · subst heq
        simp [assocLookup] at h
        subst h
        exact List.mem_cons_self _ _
      · simp [assocLookup, heq] at h
        exact List.mem_cons_of_mem _ (ih h)

theorem mem_assocLookup {α : Type} {l : List (String × α)} {k : String} {v : α}
    (hnd : (l.map Prod.fst).Nodup) (h : (k, v) ∈ l) :
    assocLookup l k = some v := by
  induction l with
  | nil => simp at h
  | cons p rest ih =>
      obtain ⟨k1, v1⟩ := p
      simp at hnd
      rcases List.mem_cons.1 h with h1 | h1
      · rw [Prod.mk.injEq] at h1
        obtain ⟨hk, hv⟩ := h1
        subst hk; subst hv
        simp [assocLookup]
      · have hk1 : k1 ≠ k := by
          intro hk
          subst hk
          exact hnd.1 v h1
        simp [assocLookup, hk1]
        exact ih hnd.2 h1

theorem assocLookup_perm {α : Type} {l1 l2 : List (String × α)}
    (hp : l1.Perm l2) (hnd : (l1.map Prod.fst).Nodup) (k : String) :
    assocLookup l1 k = assocLookup l2 k := by
  have hnd2 : (l2.map Prod.fst).Nodup := ((hp.map Prod.fst).nodup_iff).1 hnd
  cases h1 : assocLookup l1 k with
  | some v => exact (mem_assocLookup hnd2 (hp.mem_iff.1 (assocLookup_mem h1))).symm
  | none =>
      cases h2 : assocLookup l2 k with
      | none => rfl
      | some v =>
          exact absurd (hp.mem_iff.2 (assocLookup_mem h2))
            (fun hm => ((assocLookup_none_iff l1 k).1 h1)
              (by simpa using List.mem_map_of_mem Prod.fst hm))

theorem assocErase_lookup_some {α : Type} {l : List (String × α)}
    {k k0 : String} {v : α} (hnd : (l.map Prod.fst).Nodup)
    (h : assocLookup (assocErase l k0) k = some v) :
    assocLookup l k = some v := by
  induction l with
  | nil => simp [assocErase, assocLookup] at h
  | cons p rest ih =>
      obtain ⟨k1, v1⟩ := p
      simp at hnd
      obtain ⟨hnd1, hnd2⟩ := hnd
      by_cases h0 : k1 = k0
      · subst h0
        simp [assocErase] at h
        by_cases hk : k1 = k
        · subst hk
          exact absurd (assocLookup_mem h) (hnd1 v)
        · simp [assocLookup, hk]
          exact h
      · have hErase : assocErase ((k1, v1) :: rest) k0 = (k1, v1) :: assocErase rest k0 := by
          simp [assocErase, h0]
        rw [hErase] at h
        by_cases hk : k1 = k
        · subst hk
          simp [assocLookup] at h ⊢
          exact h
        · simp [assocLookup, hk] at h ⊢
          exact ih hnd2 h

/-! Lemmas about the string order used to canonicalize context keys. -/

theorem charListLeb_total : ∀ as bs : List Char,
    charListLeb as bs = true ∨ charListLeb bs as = true := by
  intro as
  induction as with
  | nil => intro bs; exact Or.inl rfl
  | cons a as ih =>
      intro bs
      cases bs with
      | nil => exact Or.inr rfl
      | cons b bs =>
          rcases Nat.lt_trichotomy a.toNat b.toNat with hlt | heq | hgt
          · left; simp [charListLeb, Nat.blt_eq, hlt]
          · have h1 : ¬ a.toNat < b.toNat := by omega
            have h2 : ¬ b.toNat < a.toNat := by omega
            rcases ih bs with h | h
            · left; simp [charListLeb, Nat.blt_eq, h1, h2, h]
            · right; simp [charListLeb, Nat.blt_eq, h1, h2, h]
          · right; simp [charListLeb, Nat.blt_eq, hgt]

theorem charListLeb_antisymm : ∀ as bs : List Char,
    charListLeb as bs = true → charListLeb bs as = true → as = bs := by
  intro as
  induction as with
  | nil =>
      intro bs h1 h2
      cases bs with
      | nil => rfl
      | cons b bs => simp [charListLeb] at h2
  | cons a as ih =>
      intro bs h1 h2
      cases bs with
      | nil => simp [charListLeb] at h1
      | cons b bs =>
          rcases Nat.lt_trichotomy a.toNat b.toNat with hlt | heq | hgt
          · exfalso
            have h2' : ¬ b.toNat < a.toNat := by omega
            simp [charListLeb, Nat.blt_eq, h2', hlt] at h2
          · have h1' : ¬ a.toNat < b.toNat := by omega
            have h2' : ¬ b.toNat < a.toNat := by omega
            have hab : a = b := by
              apply Char.ext
              apply UInt32.ext
              exact heq
            subst hab
            simp [charListLeb, Nat.blt_eq, h1'] at h1 h2
            rw [ih bs h1 h2]
          · exfalso
            have h1' : ¬ a.toNat < b.toNat := by omega
            simp [charListLeb, Nat.blt_eq, h1', hgt] at h1

theorem charListLeb_trans : ∀ as bs cs : List Char,
    charListLeb as bs = true → charListLeb bs cs = true →
    charListLeb as cs = true := by
  intro as
  induction as with
  | nil => intro bs cs h1 h2; rfl
  | cons a as ih =>
      intro bs cs h1 h2
      cases bs with
      | nil => simp [charListLeb] at h1
      | cons b bs =>
          cases cs with
          | nil => simp [charListLeb] at h2
          | cons c cs =>
              rcases Nat.lt_trichotomy a.toNat b.toNat with hab | hab | hab
              · rcases Nat.lt_trichotomy b.toNat c.toNat with hbc | hbc | hbc
                · have hac : a.toNat < c.toNat := by omega
                  simp [charListLeb, Nat.blt_eq, hac]
                · have hac : a.toNat < c.toNat := by omega
                  simp [charListLeb, Nat.blt_eq, hac]
                · exfalso
                  have h2' : ¬ b.toNat < c.toNat := by omega
                  simp [charListLeb, Nat.blt_eq, h2', hbc] at h2
              · have ha1 : ¬ a.toNat < b.toNat := by omega
                have ha2 : ¬ b.toNat < a.toNat := by omega
                simp [charListLeb, Nat.blt_eq, ha1, ha2] at h1
                rcases Nat.lt_trichotomy b.toNat c.toNat with hbc | hbc | hbc
                · have hac : a.toNat < c.toNat := by omega
                  simp [charListLeb, Nat.blt_eq, hac]
                · have hb1 : ¬ b.toNat < c.toNat := by omega
                  have hb2 : ¬ c.toNat < b.toNat := by omega
                  simp [charListLeb, Nat.blt_eq, hb1, hb2] at h2
                  have hc1 : ¬ a.toNat < c.toNat := by omega
                  have hc2 : ¬ c.toNat < a.toNat := by omega
                  simp [charListLeb, Nat.blt_eq, hc1, hc2]
                  exact ih bs cs h1 h2
                · exfalso
                  have h2' : ¬ b.toNat < c.toNat := by omega
                  simp [charListLeb, Nat.blt_eq, h2', hbc] at h2
              · exfalso
                have h1' : ¬ a.toNat < b.toNat := by omega
                simp [charListLeb, Nat.blt_eq, h1', hab] at h1

theorem strLeb_total (a b : String) : strLeb a b = true ∨ strLeb b a = true :=
  charListLeb_total a.data b.data

theorem strLeb_antisymm {a b : String} (h1 : strLeb a b = true)
    (h2 : strLeb b a = true) : a = b := by
  apply String.ext
  exact charListLeb_antisymm a.data b.data h1 h2

theorem strLeb_trans {a b c : String} (h1 : strLeb a b = true)
    (h2 : strLeb b c = true) : strLeb a c = true :=
  charListLeb_trans a.data b.data c.data h1 h2

/-! Lemmas about the key sort. -/

theorem insertSorted_perm (s : String) (l : List String) :
    (insertSorted s l).Perm (s :: l) := by
  induction l with
  | nil => exact List.Perm.refl _
  | cons t rest ih =>
      by_cases h : strLeb s t = true
      · simp only [insertSorted, if_pos h]
        exact List.Perm.refl _
      · simp only [insertSorted, if_neg h]
        exact (List.Perm.cons t ih).trans (List.Perm.swap s t rest)

theorem sortStrings_perm (l : List String) : (sortStrings l).Perm l := by
  induction l with
  | nil => exact List.Perm.refl _
  | cons s rest ih =>
      exact (insertSorted_perm s (sortStrings rest)).trans (List.Perm.cons s ih)

theorem insertSorted_sorted {s : String} {l : List String}
    (h : List.Sorted (fun a b => strLeb a b = true) l) :
    List.Sorted (fun a b => strLeb a b = true) (insertSorted s l) := by
  induction l with
  | nil => simp [insertSorted]
  | cons t rest ih =>
      rw [List.sorted_cons] at h
      obtain ⟨h1, h2⟩ := h
      by_cases hst : strLeb s t = true
      · simp only [insertSorted, if_pos hst]
        rw [List.sorted_cons]
        constructor
        · intro x hx
          rcases List.mem_cons.1 hx with hx | hx
          · subst hx; exact hst
          · exact strLeb_trans hst (h1 x hx)
        · rw [List.sorted_cons]; exact ⟨h1, h2⟩
      · have hts : strLeb t s = true := (strLeb_total s t).resolve_left hst
        simp only [insertSorted, if_neg hst]
        rw [List.sorted_cons]
        constructor
        · intro x hx
          rcases (insertSorted_perm s rest).mem_iff.1 hx with hx2
          rcases List.mem_cons.1 hx2 with hx3 | hx3
          · subst hx3; exact hts
          · exact h1 x hx3
        · exact ih h2

theorem sortStrings_sorted (l : List String) :
    List.Sorted (fun a b => strLeb a b = true) (sortStrings l) := by
  induction l with
  | nil => simp [sortStrings]
  | cons s rest ih => exact insertSorted_sorted ih

theorem sortStrings_eq_of_perm {l1 l2 : List String} (hp : l1.Perm l2) :
    sortStrings l1 = sortStrings l2 := by
  haveI : IsAntisymm String (fun a b => strLeb a b = true) :=
    ⟨fun a b h1 h2 => strLeb_antisymm h1 h2⟩
  exact List.eq_of_perm_of_sorted
    ((sortStrings_perm l1).trans (hp.trans (sortStrings_perm l2).symm))
    (sortStrings_sorted l1) (sortStrings_sorted l2)

/-! Structural lemmas about the loop body. -/

theorem processResult_error_unknown {now : Int} {o : Orchestrator}
    {r : SubagentResult} {e : RunError}
    (h : processResult now o r = .error e) : e = .unknownResultType := by
  obtain ⟨rt, rc, ra⟩ := r
  cases rt with
  | continuation =>
      cases rc with
      | none =>
          simp only [processResult] at h
          injection h with h
          exact h.symm
      | some c => simp [processResult] at h
  | analysis =>
      cases ra with
      | none =>
          simp only [processResult] at h
          injection h with h
          exact h.symm
      | some a =>
          cases hs : o.stack with
          | nil => simp [processResult, hs] at h
          | cons p rest => simp [processResult, hs] at h
  | unknown =>
      simp only [processResult] at h
      injection h with h
      exact h.symm

theorem processResult_ok_stats {now : Int} {o : Orchestrator}
    {r : SubagentResult} {o2 : Orchestrator}
    (h : processResult now o r = .ok o2) :
    o2.stats.CacheHits = o.stats.CacheHits ∧
    o2.stats.TotalSubagentCalls = o.stats.TotalSubagentCalls := by
  obtain ⟨rt, rc, ra⟩ := r
  cases rt with
  | continuation =>
      cases rc with
      | none => simp [processResult] at h
      | some c =>
          simp only [processResult] at h
          injection h with h
          subst h
          exact ⟨rfl, rfl⟩
  | analysis =>
      cases ra with
      | none => simp [processResult] at h
      | some a =>
          cases hs : o.stack with
          | nil =>
              simp only [processResult, hs] at h
              injection h with h
              subst h
              exact ⟨rfl, rfl⟩
          | cons p rest =>
              simp only [processResult, hs] at h
              injection h with h
              subst h
              exact ⟨rfl, rfl⟩
  | unknown => simp [processResult] at h

theorem processResult_ok_shape {now : Int} {o : Orchestrator}
    {r : SubagentResult} {o2 : Orchestrator}
    (h : processResult now o r = .ok o2) :
    (o2.stack = o.currentTask :: o.stack ∧
      o2.currentTask.Depth = o.currentTask.Depth + 1) ∨
    (o2.stack = o.stack ∧ o2.currentTask = o.currentTask) ∨
    (∃ p rest, o.stack = p :: rest ∧ o2.stack = rest ∧
      o2.currentTask.Depth = p.Depth) := by
  obtain ⟨rt, rc, ra⟩ := r
  cases rt with
  | continuation =>
      cases rc with
      | none => simp [processResult] at h
      | some c =>
          simp only [processResult] at h
          injection h with h
          subst h
          exact Or.inl ⟨rfl, rfl⟩
  | analysis =>
      cases ra with
      | none => simp [processResult] at h
      | some a =>
          cases hs : o.stack with
          | nil =>
              simp only [processResult, hs] at h
              injection h with h
              subst h
              exact Or.inr (Or.inl ⟨rfl, rfl⟩)
          | cons p rest =>
              simp only [processResult, hs] at h
              injection h with h
              subst h
              exact Or.inr (Or.inr ⟨p, rest, rfl, rfl, rfl⟩)
  | unknown => simp [processResult] at h

theorem handleOutcome_err (now : Int) (o : Orchestrator) (r : SubagentResult)
    (e : RunError) (hp : processResult now o r = .error e) :
    handleOutcome now o r = .failed e o := by
  unfold handleOutcome
  rw [hp]

theorem handleOutcome_ok (now : Int) (o : Orchestrator) (r : SubagentResult)
    (o3 : Orchestrator) (hp : processResult now o r = .ok o3) :
    handleOutcome now o r = doneCheck now o3 r := by
  unfold handleOutcome
  rw [hp]

theorem doneCheck_state_stats (now : Int) (o2 : Orchestrator)
    (r : SubagentResult) : (doneCheck now o2 r).state.stats = o2.stats := by
  unfold doneCheck
  split <;> simp [IterResult.state, SaveState]

theorem doneCheck_state_cache (now : Int) (o2 : Orchestrator)
    (r : SubagentResult) : (doneCheck now o2 r).state.cache = o2.cache := by
  unfold doneCheck
  split <;> simp [IterResult.state, SaveState]

theorem doneCheck_next {now : Int} {o2 : Orchestrator} {r : SubagentResult}
    {x : Orchestrator} (h : doneCheck now o2 r = .next x) :
    x = SaveState now o2 := by
  unfold doneCheck at h
  split at h
  · simp at h
  · injection h with h
    exact h.symm

theorem handleOutcome_next {now : Int} {o : Orchestrator} {r : SubagentResult}
    {o2 : Orchestrator} (h : handleOutcome now o r = .next o2) :
    ∃ o3, processResult now o r = .ok o3 ∧ o2 = SaveState now o3 := by
  cases hp : processResult now o r with
  | error e =>
      rw [handleOutcome_err now o r e hp] at h
      simp at h
  | ok o3 =>
      rw [handleOutcome_ok now o r o3 hp] at h
      exact ⟨o3, rfl, doneCheck_next h⟩

theorem handleOutcome_failed {now : Int} {o : Orchestrator} {r : SubagentResult}
    {e : RunError} {s : Orchestrator}
    (h : handleOutcome now o r = .failed e s) :
    e = .unknownResultType ∧ s = o := by
  cases hp : processResult now o r with
  | error e2 =>
      rw [handleOutcome_err now o r e2 hp] at h
      injection h with h1 h2
      exact ⟨h1 ▸ processResult_error_unknown hp, h2.symm⟩
  | ok o3 =>
      rw [handleOutcome_ok now o r o3 hp] at h
      unfold doneCheck at h
      split at h <;> simp at h

theorem handleOutcome_stats (now : Int) (o : Orchestrator) (r : SubagentResult) :
    (handleOutcome now o r).state.stats.CacheHits = o.stats.CacheHits ∧
    (handleOutcome now o r).state.stats.TotalSubagentCalls
      = o.stats.TotalSubagentCalls := by
  cases hp : processResult now o r with
  | error e =>
      rw [handleOutcome_err now o r e hp]
      exact ⟨rfl, rfl⟩
  | ok o3 =>
      rw [handleOutcome_ok now o r o3 hp]
      have hst := processResult_ok_stats hp
      rw [doneCheck_state_stats]
      exact ⟨hst.1, hst.2⟩

theorem handleOutcome_cache (now : Int) (o : Orchestrator)
    (rc : Option ContinuationRequest) (a : AnalysisResult) :
    (handleOutcome now o ⟨.analysis, rc, some a⟩).state.cache
      = StoreCache now o.config o.cache o.currentTask a := by
  cases hs : o.stack with
  | nil =>
      have hp : processResult now o ⟨.analysis, rc, some a⟩ = .ok
          { o with
            stats := { o.stats with
              TotalTokens := o.stats.TotalTokens + a.TokenCount,
              TotalCostUSD := o.stats.TotalCostUSD + a.CostUSD },
            cache := StoreCache now o.config o.cache o.currentTask a } := by
        simp [processResult, hs]
      rw [handleOutcome_ok now o _ _ hp, doneCheck_state_cache]
  | cons p rest =>
      have hp : processResult now o ⟨.analysis, rc, some a⟩ = .ok
          { o with
            stats := { o.stats with
              TotalTokens := o.stats.TotalTokens + a.TokenCount,
              TotalCostUSD := o.stats.TotalCostUSD + a.CostUSD },
            cache := StoreCache now o.config o.cache o.currentTask a,
            results := recordLabel o.results o.currentTask.ReturnTo a,
            stack := rest,
            currentTask := { p with
              ChildResults := recordLabel p.ChildResults o.currentTask.ReturnTo a } } := by
        simp [processResult, hs]
      rw [handleOutcome_ok now o _ _ hp, doneCheck_state_cache]

/-- On a memo hit within bounds, the iteration is the downstream
handling of the synthesized analysis outcome from the hit-updated
state; the dispatcher does not occur on the right-hand side. -/
theorem loopIter_hit {disp : Dispatcher} {now : Int} {it : Nat}
    {o : Orchestrator} {r : AnalysisResult} {store2 : CacheStore}
    (hd : ¬ o.currentTask.Depth > o.config.MaxRecursionDepth)
    (hi : ¬ it + 1 > o.config.MaxIterations)
    (hc : CheckCache now o.config o.cache o.currentTask = (some r, store2)) :
    loopIter disp now it o
      = handleOutcome now
          { bumpMaxDepth o with
            cache := store2,
            stats := { (bumpMaxDepth o).stats with
              CacheHits := (bumpMaxDepth o).stats.CacheHits + 1 } }
          (analysisWrap r) := by
  unfold loopIter
  rw [if_neg hd, if_neg hi]
  dsimp only
  have hc1 : CheckCache now (bumpMaxDepth o).config (bumpMaxDepth o).cache
      (bumpMaxDepth o).currentTask = (some r, store2) := hc
  rw [hc1]

/-- On a memo miss within bounds where the dispatcher errors, the
iteration fails with the wrapped dispatch error, leaving behind only
the max-depth-tracking and lazy-expiry effects. -/
theorem loopIter_miss_error {disp : Dispatcher} {now : Int} {it : Nat}
    {o : Orchestrator} {store2 : CacheStore} {msg : String}
    (hd : ¬ o.currentTask.Depth > o.config.MaxRecursionDepth)
    (hi : ¬ it + 1 > o.config.MaxIterations)
    (hc : CheckCache now o.config o.cache o.currentTask = (none, store2))
    (hdisp : disp o.currentTask = .error msg) :
    loopIter disp now it o
      = .failed (.dispatchFailed msg) { bumpMaxDepth o with cache := store2 } := by
  unfold loopIter
  rw [if_neg hd, if_neg hi]
  dsimp only
  have hc1 : CheckCache now (bumpMaxDepth o).config (bumpMaxDepth o).cache
      (bumpMaxDepth o).currentTask = (none, store2) := hc
  rw [hc1]
  dsimp only
  have hdisp1 : disp (bumpMaxDepth o).currentTask = .error msg := hdisp
  rw [hdisp1]

/-- On a memo miss within bounds where the dispatcher answers, the
iteration counts the call and handles the outcome downstream. -/
theorem loopIter_miss_ok {disp : Dispatcher} {now : Int} {it : Nat}
    {o : Orchestrator} {store2 : CacheStore} {r : SubagentResult}
    (hd : ¬ o.currentTask.Depth > o.config.MaxRecursionDepth)
    (hi : ¬ it + 1 > o.config.MaxIterations)
    (hc : CheckCache now o.config o.cache o.currentTask = (none, store2))
    (hdisp : disp o.currentTask = .ok r) :
    loopIter disp now it o
      = handleOutcome now
          { bumpMaxDepth o with
            cache := store2,
            stats := { (bumpMaxDepth o).stats with
              TotalSubagentCalls := (bumpMaxDepth o).stats.TotalSubagentCalls + 1 } }
          r := by
  unfold loopIter
  rw [if_neg hd, if_neg hi]
  dsimp only
  have hc1 : CheckCache now (bumpMaxDepth o).config (bumpMaxDepth o).cache
      (bumpMaxDepth o).currentTask = (none, store2) := hc
  rw [hc1]
  dsimp only
  have hdisp1 : disp (bumpMaxDepth o).currentTask = .ok r := hdisp
  rw [hdisp1]

/-- Any state a loop iteration hands to the next iteration is obtained
by `processResult` from a state with the same stack and current task,
followed by the snapshot save (which changes neither). -/
theorem loopIter_next_shape {disp : Dispatcher} {now : Int} {it : Nat}
    {o o2 : Orchestrator} (h : loopIter disp now it o = .next o2) :
    ∃ oMid r o3, oMid.stack = o.stack ∧ oMid.currentTask = o.currentTask ∧
      processResult now oMid r = .ok o3 ∧
      o2.stack = o3.stack ∧ o2.currentTask = o3.currentTask := by
  unfold loopIter at h
  split at h
  · simp at h
  · split at h
    · simp at h
    · dsimp only at h
      split at h
      next cached store2 hcc =>
        obtain ⟨o3, hp, ho2⟩ := handleOutcome_next h
        subst ho2
        refine ⟨_, _, o3, ?_, ?_, hp, rfl, rfl⟩
        · rfl
        · rfl
      next store2 hcc =>
        split at h
        · simp at h
        next r2 hdisp =>
          obtain ⟨o3, hp, ho2⟩ := handleOutcome_next h
          subst ho2
          refine ⟨_, _, o3, ?_, ?_, hp, rfl, rfl⟩
          · rfl
          · rfl

/-- `depthPath` inspects only the depth of its head frame. -/
theorem depthPath_head {t t2 : Task} (hd : t.Depth = t2.Depth)
    (l : List Task) : depthPath t l = depthPath t2 l := by
  cases l <;> simp [depthPath, hd]

/-- One loop step preserves the root-to-active-node depth path. -/
theorem StepLoop_preserves {o o2 : Orchestrator} (h : StepLoop o o2)
    (hI : depthPath o.currentTask o.stack = true) :
    depthPath o2.currentTask o2.stack = true := by
  obtain ⟨disp, now, it, hstep⟩ := h
  obtain ⟨oMid, r, o3, hms, hmc, hp, h2s, h2c⟩ := loopIter_next_shape hstep
  rw [h2c, h2s]
  rcases processResult_ok_shape hp with ⟨hs, hdep⟩ | ⟨hs, hcur⟩ |
    ⟨p, rest, hst, hs, hdep⟩
  · rw [hs, hms, hmc]
    rw [hmc] at hdep
    simp only [depthPath, Bool.and_eq_true, beq_iff_eq]
    exact ⟨hdep, hI⟩
  · rw [hs, hms, hcur, hmc]
    exact hI
  · rw [hs]
    rw [hms] at hst
    rw [hst] at hI
    simp only [depthPath, Bool.and_eq_true, beq_iff_eq] at hI
    rw [depthPath_head hdep]
    exact hI.2

/-! Claim C2. -/

/-- C2: in every state reachable by the controller loop from a fresh
start (no snapshot file, so the root frame sits at depth 0 over an
empty stack), the current frame and the stack beneath it form a single
root-to-active chain with depths increasing by exactly one from the
depth-0 bottom frame to the current frame. -/
theorem C2_depth_path_invariant (cfg : Config) (now : Int)
    (cache : CacheStore) (documentPath query : String) (o : Orchestrator)
    (h : Relation.ReflTransGen StepLoop
      (initState cfg now cache none documentPath query) o) :
    depthPath o.currentTask o.stack = true := by
  induction h with
  | refl => simp [initState, LoadState, rootTask, depthPath]
  | tail h1 h2 ih => exact StepLoop_preserves h2 ih

/-- C2 witness: the invariant holds at a concrete reachable state (the
fresh initial state itself). -/
theorem C2_depth_path_invariant_witness :
    depthPath
      (initState
        { MaxRecursionDepth := 10, MaxIterations := 1000,
          CacheEnabled := true, CacheTTL := 3600 } 0 [] none ("doc") ("q")).currentTask
      (initState
        { MaxRecursionDepth := 10, MaxIterations := 1000,
          CacheEnabled := true, CacheTTL := 3600 } 0 [] none ("doc") ("q")).stack
      = true :=
  C2_depth_path_invariant _ 0 [] ("doc") ("q") _ Relation.ReflTransGen.refl

/-! Concrete scenario material shared by the claims below. -/

/-- Default-style configuration used by the concrete scenarios (cache
enabled, generous bounds, an arbitrary positive TTL). -/
def scenarioConfig : Config :=
  { MaxRecursionDepth := 10, MaxIterations := 1000,
    CacheEnabled := true, CacheTTL := 3600 }

/-- A fixed terminal result used by the concrete scenarios. -/
def terminalAnalysis : AnalysisResult :=
  { rtype := "RESULT", Content := "analysis complete", Metadata := [],
    TokenCount := 1000, CostUSD := 0 }

/-- A dispatcher that always completes immediately with
`terminalAnalysis`. -/
def terminalDispatcher : Dispatcher := fun _ => .ok (analysisWrap terminalAnalysis)

/-- A dispatcher that always requests one more level of recursion. -/
def alwaysContinue : Dispatcher := fun _ =>
  .ok { rtype := .continuation,
        Continuation := some
          { rtype := "CONTINUATION", AgentType := "Worker", Task := "go deeper",
            Context := [], ReturnTo := "child", Metadata := [] },
        Analysis := none }

/-- A parent frame used by concrete witnesses. -/
def parentFrame : Task :=
  { AgentType := "Explorer", TaskDescription := "q", Context := [],
    Depth := 0, ReturnTo := none, ChildResults := [] }

/-- A labelled child frame used by concrete witnesses. -/
def childFrame : Task :=
  { AgentType := "Worker", TaskDescription := "child", Context := [],
    Depth := 1, ReturnTo := some ("A"), ChildResults := [] }

/-- A state whose stack holds the parent under the labelled child. -/
def stateNE : Orchestrator :=
  { config := scenarioConfig, stack := [parentFrame],
    currentTask := childFrame, results := [], stats := freshStats 0,
    cache := [], snapshot := none }

/-- A state with an empty stack and the root frame current. -/
def stateE : Orchestrator :=
  { config := scenarioConfig, stack := [], currentTask := parentFrame,
    results := [], stats := freshStats 0, cache := [], snapshot := none }

/-! Claim C1. -/

/-- C1: handling of a terminal dispatch outcome.  When the (pre-pop)
stack is non-empty and the current frame carries a return label,
`processResult` records the result in the cross-frame results under
that label, pops the top frame, injects the result into the popped
frame's child results under the same label, and makes the popped frame
the current frame.  When the stack is empty, the done check ends the
loop, handing the result to the caller with the snapshot cleared (the
loop in `AnalyzeDocument` maps this `done` outcome to its return). -/
theorem C1_terminal_result_processing (now : Int) (o : Orchestrator)
    (a : AnalysisResult) (r : SubagentResult) (lbl : String) (p : Task)
    (rest : List Task) (hr : r.rtype = .analysis) (ha : r.Analysis = some a) :
    (o.stack = p :: rest → o.currentTask.ReturnTo = some lbl →
      processResult now o r = .ok
        { o with
          stats := { o.stats with
            TotalTokens := o.stats.TotalTokens + a.TokenCount,
            TotalCostUSD := o.stats.TotalCostUSD + a.CostUSD },
          cache := StoreCache now o.config o.cache o.currentTask a,
          results := assocInsert o.results lbl a,
          stack := rest,
          currentTask := { p with
            ChildResults := assocInsert p.ChildResults lbl a } })
    ∧ (o.stack = [] →
      handleOutcome now o r = .done a
        { o with
          stats := { o.stats with
            TotalTokens := o.stats.TotalTokens + a.TokenCount,
            TotalCostUSD := o.stats.TotalCostUSD + a.CostUSD },
          cache := StoreCache now o.config o.cache o.currentTask a,
          snapshot := none }) := by
  obtain ⟨rt, rc, ra⟩ := r
  simp only at hr ha
  subst hr
  subst ha
  constructor
  · intro hs hret
    simp [processResult, hs, hret, recordLabel]
  · intro hs
    have hp : processResult now o ⟨.analysis, rc, some a⟩ = .ok
        { o with
          stats := { o.stats with
            TotalTokens := o.stats.TotalTokens + a.TokenCount,
            TotalCostUSD := o.stats.TotalCostUSD + a.CostUSD },
          cache := StoreCache now o.config o.cache o.currentTask a } := by
      simp [processResult, hs]
    rw [handleOutcome_ok now o _ _ hp]
    simp [doneCheck, hs]

/-- C1 witness: the two branches at concrete states. -/
theorem C1_terminal_result_processing_witness :
    (processResult 0 stateNE (analysisWrap terminalAnalysis) = .ok
      { stateNE with
        stats := { stateNE.stats with
          TotalTokens := stateNE.stats.TotalTokens + terminalAnalysis.TokenCount,
          TotalCostUSD := stateNE.stats.TotalCostUSD + terminalAnalysis.CostUSD },
        cache := StoreCache 0 stateNE.config stateNE.cache stateNE.currentTask
          terminalAnalysis,
        results := assocInsert stateNE.results ("A") terminalAnalysis,
        stack := [],
        currentTask := { parentFrame with
          ChildResults := assocInsert parentFrame.ChildResults ("A")
            terminalAnalysis } })
    ∧ (handleOutcome 0 stateE (analysisWrap terminalAnalysis)
      = .done terminalAnalysis
        { stateE with
          stats := { stateE.stats with
            TotalTokens := stateE.stats.TotalTokens + terminalAnalysis.TokenCount,
            TotalCostUSD := stateE.stats.TotalCostUSD + terminalAnalysis.CostUSD },
          cache := StoreCache 0 stateE.config stateE.cache stateE.currentTask
            terminalAnalysis,
          snapshot := none }) :=
  ⟨(C1_terminal_result_processing 0 stateNE terminalAnalysis _ ("A")
      parentFrame [] rfl rfl).1 rfl rfl,
   (C1_terminal_result_processing 0 stateE terminalAnalysis _ ("A")
      parentFrame [] rfl rfl).2 rfl⟩

/-! Claim C3. -/

/-- A snapshot taken mid-run, with five dispatcher calls already
accumulated, used by the resume scenario. -/
def midRunSnapshot : State :=
  { Stack := [], CurrentTask := parentFrame, Results := [],
    RunStats :=
      { TotalSubagentCalls := 5, TotalTokens := 7,
        TotalCostUSD := 0, MaxDepthReached := 0, CacheHits := 2,
        StartTime := 0 },
    Timestamp := 50 }

/-- C3: when a readable, well-formed snapshot exists (its current task
has a non-empty agent type, as every task the controller saves does),
the state entering the loop is exactly the snapshot's stack, current
frame, cross-frame results and stats — the restored counters are not
reset.  Concretely, resuming `midRunSnapshot` (5 pre-interruption
calls) with a terminal dispatcher ends with cumulative
`TotalSubagentCalls = 6` and the restored `CacheHits = 2`. -/
theorem C3_resume_restores_verbatim :
    (∀ (cfg : Config) (now : Int) (cache : CacheStore) (s : State)
        (documentPath query : String), s.CurrentTask.AgentType ≠ "" →
      initState cfg now cache (some (.good s)) documentPath query
        = { config := cfg, stack := s.Stack, currentTask := s.CurrentTask,
            results := s.Results, stats := s.RunStats,
            cache := cache, snapshot := some (.good s) })
    ∧ (AnalyzeDocument terminalDispatcher 100 scenarioConfig []
        (some (.good midRunSnapshot)) ("doc") ("q")).2.stats.TotalSubagentCalls = 6
    ∧ (AnalyzeDocument terminalDispatcher 100 scenarioConfig []
        (some (.good midRunSnapshot)) ("doc") ("q")).2.stats.CacheHits = 2 := by
  refine ⟨?_, by decide, by decide⟩
  intro cfg now cache s documentPath query hagent
  simp [initState, LoadState, hagent]

/-- C3 witness: restoring the concrete mid-run snapshot reproduces it
verbatim. -/
theorem C3_resume_restores_verbatim_witness :
    initState scenarioConfig 100 [] (some (.good midRunSnapshot)) ("doc") ("q")
      = { config := scenarioConfig, stack := midRunSnapshot.Stack,
          currentTask := midRunSnapshot.CurrentTask,
          results := midRunSnapshot.Results,
          stats := midRunSnapshot.RunStats, cache := [],
          snapshot := some (.good midRunSnapshot) } :=
  C3_resume_restores_verbatim.1 scenarioConfig 100 [] midRunSnapshot
    ("doc") ("q") (by decide)

/-! Claim C4. -/

/-- C4: the depth bound is evaluated first.  An iteration fails with
`maxDepthExceeded` exactly when the current depth strictly exceeds the
configured maximum, and in that case it fails as the very first action,
returning the state untouched without consulting the cache or the
dispatcher (the right-hand side does not mention `disp`).  Concretely,
with a maximum depth of 2 and an always-continuing dispatcher, the run
fails with `maxDepthExceeded` after exactly three dispatcher calls,
with the current frame at depth 3 — the first depth exceeding 2. -/
theorem C4_depth_bound_first :
    (∀ (disp : Dispatcher) (now : Int) (it : Nat) (o : Orchestrator),
      (o.currentTask.Depth > o.config.MaxRecursionDepth →
        loopIter disp now it o = .failed .maxDepthExceeded o)
      ∧ (∀ s, loopIter disp now it o = .failed .maxDepthExceeded s →
          o.currentTask.Depth > o.config.MaxRecursionDepth))
    ∧ (AnalyzeDocument alwaysContinue 0
        { scenarioConfig with MaxRecursionDepth := 2 } [] none
        ("doc") ("q")).1 = .error .maxDepthExceeded
    ∧ (AnalyzeDocument alwaysContinue 0
        { scenarioConfig with MaxRecursionDepth := 2 } [] none
        ("doc") ("q")).2.stats.TotalSubagentCalls = 3
    ∧ (AnalyzeDocument alwaysContinue 0
        { scenarioConfig with MaxRecursionDepth := 2 } [] none
        ("doc") ("q")).2.currentTask.Depth = 3 := by
  refine ⟨?_, by decide, by decide, by decide⟩
  intro disp now it o
  constructor
  · intro hd
    unfold loopIter
    rw [if_pos hd]
  · intro s h
    by_cases hd : o.currentTask.Depth > o.config.MaxRecursionDepth
    · exact hd
    · exfalso
      unfold loopIter at h
      rw [if_neg hd] at h
      split at h
      · injection h with h1 h2
        exact RunError.noConfusion h1
      · dsimp only at h
        split at h
        next cached store2 hcc =>
          exact RunError.noConfusion (handleOutcome_failed h).1
        next store2 hcc =>
          split at h
          · injection h with h1 h2
            exact RunError.noConfusion h1
          next r2 hdisp =>
            exact RunError.noConfusion (handleOutcome_failed h).1

/-- C4 witness: a state over the depth bound fails immediately with the
state untouched. -/
theorem C4_depth_bound_first_witness :
    loopIter terminalDispatcher 0 0
      { stateE with currentTask := { parentFrame with Depth := 11 } }
      = .failed .maxDepthExceeded
        { stateE with currentTask := { parentFrame with Depth := 11 } } :=
  (C4_depth_bound_first.1 terminalDispatcher 0 0
    { stateE with currentTask := { parentFrame with Depth := 11 } }).1
    (by decide)

/-! Claim C8. -/

/-- C8: a missing snapshot file loads as a successful no-op (fresh
start, no error surfaced), and a malformed one yields an unmarshal
error that `AnalyzeDocument` only logs: in both cases the run proceeds
over a fresh root frame at depth 0, and a run over a corrupt snapshot
completes normally. -/
theorem C8_load_fallback :
    LoadState none = .ok none
    ∧ LoadState (some .corrupt) = .error ("failed to unmarshal state")
    ∧ (∀ (disp : Dispatcher) (now : Int) (cfg : Config) (cache : CacheStore)
        (dp q : String),
      AnalyzeDocument disp now cfg cache (some .corrupt) dp q
        = runLoop disp now (cfg.MaxIterations + 1) 0
            { config := cfg, stack := [], currentTask := rootTask dp q,
              results := [], stats := freshStats now, cache := cache,
              snapshot := some .corrupt })
    ∧ (∀ (disp : Dispatcher) (now : Int) (cfg : Config) (cache : CacheStore)
        (dp q : String),
      AnalyzeDocument disp now cfg cache none dp q
        = runLoop disp now (cfg.MaxIterations + 1) 0
            { config := cfg, stack := [], currentTask := rootTask dp q,
              results := [], stats := freshStats now, cache := cache,
              snapshot := none })
    ∧ (∀ dp q, (rootTask dp q).Depth = 0)
    ∧ (AnalyzeDocument terminalDispatcher 100 scenarioConfig []
        (some .corrupt) ("doc") ("q")).1 = .ok terminalAnalysis := by
  refine ⟨rfl, rfl, ?_, ?_, fun dp q => rfl, by decide⟩
  · intro disp now cfg cache dp q
    rfl
  · intro disp now cfg cache dp q
    rfl

/-- C8 witness: the fresh-start equations at concrete arguments. -/
theorem C8_load_fallback_witness :
    AnalyzeDocument terminalDispatcher 100 scenarioConfig []
        (some .corrupt) ("doc") ("q")
      = runLoop terminalDispatcher 100 (scenarioConfig.MaxIterations + 1) 0
          { config := scenarioConfig, stack := [],
            currentTask := rootTask ("doc") ("q"), results := [],
            stats := freshStats 100, cache := [],
            snapshot := some .corrupt } :=
  C8_load_fallback.2.2.1 terminalDispatcher 100 scenarioConfig [] ("doc") ("q")

/-! Claim C5. -/

/-- The first run of the repeated-frame scenario: fresh working
directory, terminal dispatcher. -/
def firstRun : Except RunError AnalysisResult × Orchestrator :=
  AnalyzeDocument terminalDispatcher 100 scenarioConfig [] none ("doc") ("q")

/-- The second run of the repeated-frame scenario: the same document
and query against the working directory the first run left behind,
100 time units later (well within the TTL of 3600). -/
def secondRun : Except RunError AnalysisResult × Orchestrator :=
  AnalyzeDocument terminalDispatcher 200 scenarioConfig
    firstRun.2.cache firstRun.2.snapshot ("doc") ("q")

/-- C5: on an unexpired cache hit within bounds, the iteration equals
the downstream handling of the synthesized terminal outcome — a
right-hand side with no occurrence of the dispatcher, so the iteration
agrees for any two dispatchers — with `CacheHits` incremented by one
and `TotalSubagentCalls` unchanged.  Consequently, in the concrete
two-run scenario the identical frame dispatched twice within the TTL
window reaches the dispatcher exactly once: the first run dispatches
once, the second run dispatches zero times and records one cache hit,
returning the identical result. -/
theorem C5_cache_hit_suppresses_dispatch :
    (∀ (disp disp2 : Dispatcher) (now : Int) (it : Nat) (o : Orchestrator)
        (r : AnalysisResult) (store2 : CacheStore),
      ¬ o.currentTask.Depth > o.config.MaxRecursionDepth →
      ¬ it + 1 > o.config.MaxIterations →
      CheckCache now o.config o.cache o.currentTask = (some r, store2) →
      loopIter disp now it o
        = handleOutcome now
            { bumpMaxDepth o with
              cache := store2,
              stats := { (bumpMaxDepth o).stats with
                CacheHits := (bumpMaxDepth o).stats.CacheHits + 1 } }
            (analysisWrap r)
      ∧ loopIter disp now it o = loopIter disp2 now it o
      ∧ (loopIter disp now it o).state.stats.CacheHits = o.stats.CacheHits + 1
      ∧ (loopIter disp now it o).state.stats.TotalSubagentCalls
          = o.stats.TotalSubagentCalls)
    ∧ firstRun.1 = .ok terminalAnalysis
    ∧ firstRun.2.stats.TotalSubagentCalls = 1
    ∧ secondRun.1 = .ok terminalAnalysis
    ∧ secondRun.2.stats.TotalSubagentCalls = 0
    ∧ secondRun.2.stats.CacheHits = 1 := by
  refine ⟨?_, by decide, by decide, by decide, by decide, by decide⟩
  intro disp disp2 now it o r store2 hd hi hc
  have heq := @loopIter_hit disp now it o r store2 hd hi hc
  refine ⟨heq, ?_, ?_, ?_⟩
  · rw [heq, @loopIter_hit disp2 now it o r store2 hd hi hc]
  · rw [heq]
    exact (handleOutcome_stats now _ _).1
  · rw [heq]
    exact (handleOutcome_stats now _ _).2

/-- C5 witness: the hit-path equations at a concrete state whose cache
holds a fresh entry for the current frame. -/
theorem C5_cache_hit_suppresses_dispatch_witness :
    loopIter terminalDispatcher 10 0
        { stateE with cache :=
            [(GenerateCacheKey parentFrame,
              { Result := terminalAnalysis, Timestamp := 0, TTL := 3600 })] }
      = loopIter alwaysContinue 10 0
        { stateE with cache :=
            [(GenerateCacheKey parentFrame,
              { Result := terminalAnalysis, Timestamp := 0, TTL := 3600 })] }
    ∧ (loopIter terminalDispatcher 10 0
        { stateE with cache :=
            [(GenerateCacheKey parentFrame,
              { Result := terminalAnalysis, Timestamp := 0, TTL := 3600 })] }).state.stats.CacheHits
      = 1 :=
  ⟨((C5_cache_hit_suppresses_dispatch.1 terminalDispatcher alwaysContinue 10 0
      { stateE with cache :=
          [(GenerateCacheKey parentFrame,
            { Result := terminalAnalysis, Timestamp := 0, TTL := 3600 })] }
      terminalAnalysis
      [(GenerateCacheKey parentFrame,
        { Result := terminalAnalysis, Timestamp := 0, TTL := 3600 })]
      (by decide) (by decide) (by decide)).2.1),
   ((C5_cache_hit_suppresses_dispatch.1 terminalDispatcher alwaysContinue 10 0
      { stateE with cache :=
          [(GenerateCacheKey parentFrame,
            { Result := terminalAnalysis, Timestamp := 0, TTL := 3600 })] }
      terminalAnalysis
      [(GenerateCacheKey parentFrame,
        { Result := terminalAnalysis, Timestamp := 0, TTL := 3600 })]
      (by decide) (by decide) (by decide)).2.2.1)⟩

/-- `handleOutcome_cache` phrased for the wrapped cached result. -/
theorem handleOutcome_cache_wrap (now : Int) (o : Orchestrator)
    (a : AnalysisResult) :
    (handleOutcome now o (analysisWrap a)).state.cache
      = StoreCache now o.config o.cache o.currentTask a :=
  handleOutcome_cache now o none a

/-- The memo store a hit iteration leaves behind is the post-check
store with the synthesized result re-stored under the frame's key. -/
theorem loopIter_hit_state_cache {disp : Dispatcher} {now : Int} {it : Nat}
    {o : Orchestrator} {r : AnalysisResult} {store2 : CacheStore}
    (hd : ¬ o.currentTask.Depth > o.config.MaxRecursionDepth)
    (hi : ¬ it + 1 > o.config.MaxIterations)
    (hc : CheckCache now o.config o.cache o.currentTask = (some r, store2)) :
    (loopIter disp now it o).state.cache
      = StoreCache now o.config store2 o.currentTask r := by
  rw [loopIter_hit hd hi hc]
  exact handleOutcome_cache_wrap now _ r

/-! Claim C9. -/

/-- C9: every enabled store writes an entry stamped with the instant of
the store and the configured TTL, and the controller re-stores after
every terminal outcome including cache hits: after an unexpired hit the
entry at the frame's key carries `Timestamp = now`, so (with the TTL
configuration unchanged) the new expiry `now + ttl` is no earlier than
the old one — the TTL is anchored to the most recent access. -/
theorem C9_hit_refreshes_ttl :
    (∀ (now : Int) (cfg : Config) (store : CacheStore) (task : Task)
        (r : AnalysisResult), cfg.CacheEnabled = true →
      assocLookup (StoreCache now cfg store task r) (GenerateCacheKey task)
        = some { Result := r, Timestamp := now, TTL := cfg.CacheTTL })
    ∧ (∀ (disp : Dispatcher) (now : Int) (it : Nat) (o : Orchestrator)
        (entry : CacheEntry),
      ¬ o.currentTask.Depth > o.config.MaxRecursionDepth →
      ¬ it + 1 > o.config.MaxIterations →
      o.config.CacheEnabled = true →
      assocLookup o.cache (GenerateCacheKey o.currentTask) = some entry →
      now - entry.Timestamp ≤ entry.TTL →
      assocLookup (loopIter disp now it o).state.cache
          (GenerateCacheKey o.currentTask)
        = some { Result := entry.Result, Timestamp := now,
                 TTL := o.config.CacheTTL }
      ∧ (entry.Timestamp ≤ now → entry.TTL = o.config.CacheTTL →
          entry.Timestamp + entry.TTL ≤ now + o.config.CacheTTL)) := by
  constructor
  · intro now cfg store task r henabled
    unfold StoreCache
    rw [henabled]
    simp only [if_true]
    exact assocLookup_insert_self store (GenerateCacheKey task) _
  · intro disp now it o entry hd hi henabled hlook hfresh
    have hnx : ¬ now - entry.Timestamp > entry.TTL := by omega
    have hc : CheckCache now o.config o.cache o.currentTask
        = (some entry.Result, o.cache) := by
      simp [CheckCache, henabled, hlook, hnx]
    constructor
    · rw [loopIter_hit_state_cache hd hi hc]
      have hstore : StoreCache now o.config o.cache o.currentTask entry.Result
          = assocInsert o.cache (GenerateCacheKey o.currentTask)
              { Result := entry.Result, Timestamp := now,
                TTL := o.config.CacheTTL } := by
        simp [StoreCache, henabled]
      rw [hstore]
      exact assocLookup_insert_self o.cache (GenerateCacheKey o.currentTask) _
    · intro h1 h2
      omega

/-- C9 witness: after a hit at time 10 on an entry stored at time 0,
the entry at the frame's key is re-stamped at 10 with the configured
TTL. -/
theorem C9_hit_refreshes_ttl_witness :
    assocLookup
        (loopIter terminalDispatcher 10 0
          { stateE with cache :=
              [(GenerateCacheKey parentFrame,
                { Result := terminalAnalysis, Timestamp := 0,
                  TTL := 3600 })] }).state.cache
        (GenerateCacheKey parentFrame)
      = some { Result := terminalAnalysis, Timestamp := 10, TTL := 3600 } :=
  (C9_hit_refreshes_ttl.2 terminalDispatcher 10 0
    { stateE with cache :=
        [(GenerateCacheKey parentFrame,
          { Result := terminalAnalysis, Timestamp := 0, TTL := 3600 })] }
    { Result := terminalAnalysis, Timestamp := 0, TTL := 3600 }
    (by decide) (by decide) (by decide) (by decide) (by decide)).1

/-! Claim C10. -/

/-- The store a cache check leaves behind is the input store or the
input store with the checked key lazily erased. -/
theorem CheckCache_snd_cases (now : Int) (cfg : Config) (store : CacheStore)
    (task : Task) :
    (CheckCache now cfg store task).2 = store ∨
    (CheckCache now cfg store task).2
      = assocErase store (GenerateCacheKey task) := by
  unfold CheckCache
  by_cases he : cfg.CacheEnabled = true
  · rw [he]
    simp only [if_true]
    cases hl : assocLookup store (GenerateCacheKey task) with
    | none => exact Or.inl rfl
    | some e =>
        by_cases ht : now - e.Timestamp > e.TTL
        · right
          simp [ht]
        · left
          simp [ht]
  · simp only [Bool.not_eq_true] at he
    rw [he]
    exact Or.inl rfl

/-- C10: when the dispatcher errors, the iteration fails immediately
with the wrapped dispatch error; the stack, current frame, cross-frame
results, token, cost and call counters, and the snapshot are exactly as
before the dispatch; no cache entry is written (every entry of the
left-behind store was already present — the cache check can only have
lazily dropped an expired entry), and the loop surfaces the error
without a snapshot save. -/
theorem C10_dispatch_error_preserves_state (disp : Dispatcher) (now : Int)
    (it : Nat) (o : Orchestrator) (store2 : CacheStore) (msg : String)
    (hd : ¬ o.currentTask.Depth > o.config.MaxRecursionDepth)
    (hi : ¬ it + 1 > o.config.MaxIterations)
    (hc : CheckCache now o.config o.cache o.currentTask = (none, store2))
    (hdisp : disp o.currentTask = .error msg)
    (hnd : (o.cache.map Prod.fst).Nodup) :
    loopIter disp now it o
        = .failed (.dispatchFailed msg) { bumpMaxDepth o with cache := store2 }
    ∧ ({ bumpMaxDepth o with cache := store2 } : Orchestrator).stack = o.stack
    ∧ ({ bumpMaxDepth o with cache := store2 } : Orchestrator).currentTask
        = o.currentTask
    ∧ ({ bumpMaxDepth o with cache := store2 } : Orchestrator).results
        = o.results
    ∧ ({ bumpMaxDepth o with cache := store2 } : Orchestrator).stats.TotalTokens
        = o.stats.TotalTokens
    ∧ ({ bumpMaxDepth o with cache := store2 } : Orchestrator).stats.TotalCostUSD
        = o.stats.TotalCostUSD
    ∧ ({ bumpMaxDepth o with
          cache := store2 } : Orchestrator).stats.TotalSubagentCalls
        = o.stats.TotalSubagentCalls
    ∧ ({ bumpMaxDepth o with cache := store2 } : Orchestrator).snapshot
        = o.snapshot
    ∧ (∀ k e, assocLookup store2 k = some e → assocLookup o.cache k = some e)
    ∧ (∀ fuel, runLoop disp now (fuel + 1) it o
        = (.error (.dispatchFailed msg),
           { bumpMaxDepth o with cache := store2 })) := by
  have hfail := loopIter_miss_error hd hi hc hdisp
  have hstore : store2 = (CheckCache now o.config o.cache o.currentTask).2 := by
    rw [hc]
  refine ⟨hfail, rfl, rfl, rfl, rfl, rfl, rfl, rfl, ?_, ?_⟩
  · intro k e hk
    rcases CheckCache_snd_cases now o.config o.cache o.currentTask with h2 | h2
    · rw [hstore, h2] at hk
      exact hk
    · rw [hstore, h2] at hk
      exact assocErase_lookup_some hnd hk
  · intro fuel
    unfold runLoop
    rw [hfail]

/-- C10 witness: a concrete erroring dispatch leaves the concrete state
untouched and surfaces the wrapped error. -/
theorem C10_dispatch_error_preserves_state_witness :
    loopIter (fun _ => .error ("boom")) 0 0 stateE
      = .failed (.dispatchFailed ("boom"))
        { bumpMaxDepth stateE with cache := [] } :=
  (C10_dispatch_error_preserves_state (fun _ => .error ("boom")) 0 0 stateE
    [] ("boom") (by decide) (by decide) (by decide) rfl (by decide)).1

/-! Claim C6. -/

/-- C6: `GenerateCacheKey` is a canonical content address.  Two tasks
with the same agent role, the same description and contexts holding the
same key/value pairs (in any order, keys duplicate-free) receive the
same key; the tasks' `Depth`, `ReturnTo` and `ChildResults` fields are
unconstrained here, so the key is independent of them. -/
theorem C6_cache_key_canonical (t1 t2 : Task)
    (hrole : t1.AgentType = t2.AgentType)
    (hdesc : t1.TaskDescription = t2.TaskDescription)
    (hperm : t1.Context.Perm t2.Context)
    (hnd : (t1.Context.map Prod.fst).Nodup) :
    GenerateCacheKey t1 = GenerateCacheKey t2 := by
  have hkeys : sortStrings (t1.Context.map Prod.fst)
      = sortStrings (t2.Context.map Prod.fst) :=
    sortStrings_eq_of_perm (hperm.map Prod.fst)
  have hlook : ∀ k, assocLookup t1.Context k = assocLookup t2.Context k :=
    assocLookup_perm hperm hnd
  simp only [GenerateCacheKey, hrole, hdesc, hkeys, hlook]

/-- C6 witness: two concrete tasks whose contexts are reordered and
whose depth, return label and child results differ, with equal keys. -/
theorem C6_cache_key_canonical_witness :
    GenerateCacheKey
        { AgentType := "Explorer", TaskDescription := "q",
          Context := [("a", JValue.num 1), ("b", JValue.num 2)], Depth := 0,
          ReturnTo := none, ChildResults := [] }
      = GenerateCacheKey
        { AgentType := "Explorer", TaskDescription := "q",
          Context := [("b", JValue.num 2), ("a", JValue.num 1)], Depth := 5,
          ReturnTo := some ("lbl"),
          ChildResults := [("lbl", terminalAnalysis)] } :=
  C6_cache_key_canonical _ _ rfl rfl (by decide) (by decide)

/-! Claim C7. -/

/-- C7: a memo-store lookup hits exactly when an entry exists whose age
`now - storedAt` is at most its TTL; a fresh entry is returned with the
store untouched; an expired entry is purged from the store and reported
as a miss. -/
theorem C7_memo_lookup_ttl (now : Int) (cfg : Config) (store : CacheStore)
    (task : Task) (henabled : cfg.CacheEnabled = true) :
    ((CheckCache now cfg store task).1.isSome = true ↔
      ∃ e, assocLookup store (GenerateCacheKey task) = some e ∧
        now - e.Timestamp ≤ e.TTL)
    ∧ (∀ e, assocLookup store (GenerateCacheKey task) = some e →
        now - e.Timestamp ≤ e.TTL →
        CheckCache now cfg store task = (some e.Result, store))
    ∧ (∀ e, assocLookup store (GenerateCacheKey task) = some e →
        now - e.Timestamp > e.TTL →
        CheckCache now cfg store task =
          (none, assocErase store (GenerateCacheKey task))) := by
  refine ⟨?_, ?_, ?_⟩
  · cases hl : assocLookup store (GenerateCacheKey task) with
    | none =>
        have heq : CheckCache now cfg store task = (none, store) := by
          simp [CheckCache, henabled, hl]
        rw [heq]
        constructor
        · intro hs; simp at hs
        · rintro ⟨e2, he2, hle⟩
          simp at he2
    | some e =>
        by_cases ht : now - e.Timestamp > e.TTL
        · have heq : CheckCache now cfg store task
              = (none, assocErase store (GenerateCacheKey task)) := by
            simp [CheckCache, henabled, hl, ht]
          rw [heq]
          constructor
          · intro hs; simp at hs
          · rintro ⟨e2, he2, hle⟩
            injection he2 with he2
            subst he2
            omega
        · have heq : CheckCache now cfg store task = (some e.Result, store) := by
            simp [CheckCache, henabled, hl, ht]
          rw [heq]
          constructor
          · intro hs
            exact ⟨e, rfl, by omega⟩
          · intro hs
            rfl
  · intro e hl hle
    have ht : ¬ now - e.Timestamp > e.TTL := by omega
    simp [CheckCache, henabled, hl, ht]
  · intro e hl ht
    simp [CheckCache, henabled, hl, ht]

/-- C7 witness: a store holding one fresh and looking it up in time
hits; the same entry looked up past its TTL (TTL one unit, age ten) is
purged and misses. -/
theorem C7_memo_lookup_ttl_witness :
    CheckCache 5 scenarioConfig
        [(GenerateCacheKey Task.empty,
          { Result := terminalAnalysis, Timestamp := 0, TTL := 3600 })]
        Task.empty
      = (some terminalAnalysis,
         [(GenerateCacheKey Task.empty,
           { Result := terminalAnalysis, Timestamp := 0, TTL := 3600 })])
    ∧ CheckCache 10 scenarioConfig
        [(GenerateCacheKey Task.empty,
          { Result := terminalAnalysis, Timestamp := 0, TTL := 1 })]
        Task.empty
      = (none, []) := by
  constructor
  · exact (C7_memo_lookup_ttl 5 scenarioConfig _ Task.empty rfl).2.1
      { Result := terminalAnalysis, Timestamp := 0, TTL := 3600 }
      (by decide) (by decide)
  · have h := (C7_memo_lookup_ttl 10 scenarioConfig
      [(GenerateCacheKey Task.empty,
        { Result := terminalAnalysis, Timestamp := 0, TTL := 1 })]
      Task.empty rfl).2.2
      { Result := terminalAnalysis, Timestamp := 0, TTL := 1 }
      (by decide) (by decide)
    rw [h]
    simp [assocErase]

end RLM
